import Mathlib

/-!
Verification of src/solution/solution.py from the qchack-google repository.

The repository is a single function, matrix_to_sycamore_operations, that
converts a unitary matrix into Sycamore-native operations by delegating to
two external quantum SDKs.  The glue control flow (size guard, pipeline
order, tie-break between the converted and the optimized circuit, ancilla
handling, exception propagation) is translated here exactly; the opaque
external library calls are modelled as parameters bundled in a `Libs`
structure, with their documented behaviour stated as hypotheses where a
claim depends on it.  All library calls may fail, so each is an
Except-valued function, mirroring Python exceptions.
-/

namespace QchackGoogle

/-- Qubit identifiers.  The caller of the source function passes
cirq GridQubits (a row and a column); the QASM import inside the
pipeline manufactures cirq NamedQubits (a register name with an index),
and the two kinds are distinct objects in cirq. -/
inductive Qubit where
  | grid (row col : Int)
  | named (name : String)
deriving DecidableEq, Repr

/-- A gate operation as it appears in a cirq circuit: a gate label and the
ordered list of qubits it acts on.  Gate parameters play no role in any
claim and are folded into the label. -/
structure Operation where
  gate : String
  qubits : List Qubit
deriving DecidableEq, Repr

/-- First component of the returned pair: either the Python sentinel
NotImplemented, or a list of operations (the cirq OP_TREE). -/
inductive OpTreeResult where
  | NotImplemented : OpTreeResult
  | ops (l : List Operation) : OpTreeResult
deriving DecidableEq, Repr

/-- The external library surface used by the source function, one field per
opaque call site, in source order.  `Mat` is the type of the numpy matrix
argument, `QCirc` the type of qiskit circuits, `E` the type of Python
exceptions.  Each call may raise, hence the Except results.
- `unitary`: qiskit.QuantumCircuit of the given width plus qc.unitary
  appending the matrix as a gate on all its qubits;
- `transpile`: qiskit.transpile with basis_gates cx and u3;
- `qasm`: qc.qasm, serialization to the QASM text format;
- `circuit_from_qasm`: cirq.contrib qasm_import followed by the
  cirq.Circuit constructor, re-parsing the text into a cirq circuit,
  modelled as its operation list;
- `convert`: cirq.google.ConvertToSycamoreGates and its convert method;
- `optimized_for_sycamore`: cirq.Circuit of the converted operations,
  cirq.google.optimized_for_sycamore, then flattening via all_operations
  into a list. -/
structure Libs (Mat QCirc E : Type) where
  unitary : Nat → Mat → Except E QCirc
  transpile : QCirc → Except E QCirc
  qasm : QCirc → Except E String
  circuit_from_qasm : String → Except E (List Operation)
  convert : List Operation → Except E (List Operation)
  optimized_for_sycamore : List Operation → Except E (List Operation)

variable {Mat QCirc E : Type}

/-- The body of the function after the size guard, lines 35 to 51 of
src/solution/solution.py: build the circuit from the matrix, transpile,
serialize to QASM, re-parse into cirq, convert to Sycamore gates, run the
optimization pass, then return the shorter of the converted list qz and
the optimized list qy (the source tie-break `ans = qz if len(qy) > len(qz)
else qy`), paired with an empty ancilla list.  Any exception from a stage
aborts the remaining stages and propagates. -/
def decompositionPipeline (L : Libs Mat QCirc E) (n : Nat) (matrix : Mat) :
    Except E (OpTreeResult × List Qubit) :=
  match L.unitary n matrix with
  | .error e => .error e
  | .ok qc =>
    match L.transpile qc with
    | .error e => .error e
    | .ok qc2 =>
      match L.qasm qc2 with
      | .error e => .error e
      | .ok qasmText =>
        match L.circuit_from_qasm qasmText with
        | .error e => .error e
        | .ok qx =>
          match L.convert qx with
          | .error e => .error e
          | .ok qz =>
            match L.optimized_for_sycamore qz with
            | .error e => .error e
            | .ok qy =>
              .ok (.ops (if qz.length < qy.length then qz else qy), [])

/-- Lines 31 to 51 of src/solution/solution.py: if more than 4 target
qubits, return the NotImplemented sentinel with an empty ancilla list;
otherwise run the decomposition pipeline on a circuit whose width is the
number of target qubits. -/
def matrix_to_sycamore_operations (L : Libs Mat QCirc E)
    (target_qubits : List Qubit) (matrix : Mat) :
    Except E (OpTreeResult × List Qubit) :=
  if 4 < target_qubits.length then .ok (.NotImplemented, [])
  else decompositionPipeline L target_qubits.length matrix

/-- The local frame of the Python function: its two inputs and the local
variables it assigns (qc, qasm, qx, qz, qy, ans), each None before its
first assignment.  Used to state that the function writes only its locals
and never its inputs. -/
structure Frame (Mat QCirc : Type) where
  target_qubits : List Qubit
  matrix : Mat
  qc : Option QCirc
  qasmText : Option String
  qx : Option (List Operation)
  qz : Option (List Operation)
  qy : Option (List Operation)
  ans : Option (List Operation)

/-- The initial frame on entry: inputs bound, no local assigned yet. -/
def Frame.init (target_qubits : List Qubit) (matrix : Mat) :
    Frame Mat QCirc :=
  ⟨target_qubits, matrix, none, none, none, none, none, none⟩

/-- Statement-level translation of the function body: each Python
assignment updates exactly the corresponding local of the frame, and the
final frame is returned next to the result so that the effect of the call
on every variable is visible, also when an exception aborts the body. -/
def runStmts (L : Libs Mat QCirc E) (f : Frame Mat QCirc) :
    Frame Mat QCirc × Except E (OpTreeResult × List Qubit) :=
  if 4 < f.target_qubits.length then (f, .ok (.NotImplemented, []))
  else
    match L.unitary f.target_qubits.length f.matrix with
    | .error e => (f, .error e)
    | .ok c =>
      let f1 := { f with qc := some c }
      match L.transpile c with
      | .error e => (f1, .error e)
      | .ok c2 =>
        let f2 := { f1 with qc := some c2 }
        match L.qasm c2 with
        | .error e => (f2, .error e)
        | .ok s =>
          let f3 := { f2 with qasmText := some s }
          match L.circuit_from_qasm s with
          | .error e => (f3, .error e)
          | .ok x =>
            let f4 := { f3 with qx := some x }
            match L.convert x with
            | .error e => (f4, .error e)
            | .ok z =>
              let f5 := { f4 with qz := some z }
              match L.optimized_for_sycamore z with
              | .error e => (f5, .error e)
              | .ok y =>
                let f6 := { f5 with qy := some y }
                let a := if z.length < y.length then z else y
                let f7 := { f6 with ans := some a }
                (f7, .ok (.ops a, []))

/-- Module-level state of src/solution/solution.py.  The module defines
only imports and the one function, no module-level mutable variable, so
the state shared between invocations is trivial. -/
def ModuleState : Type := Unit

/-- One invocation of the function as an action on the module state: the
function reads no module-level variable and writes none, so the state is
passed through unchanged next to the pure result. -/
def invoke (g : ModuleState) (L : Libs Mat QCirc E)
    (target_qubits : List Qubit) (matrix : Mat) :
    ModuleState × Except E (OpTreeResult × List Qubit) :=
  (g, matrix_to_sycamore_operations L target_qubits matrix)

/-- Trivial instantiation of the library surface, used to evaluate the
glue logic on concrete inputs: every stage succeeds and every circuit is
empty. -/
def trivLibs : Libs Unit Unit Unit where
  unitary := fun _ _ => .ok ()
  transpile := fun _ => .ok ()
  qasm := fun _ => .ok ""
  circuit_from_qasm := fun _ => .ok []
  convert := fun l => .ok l
  optimized_for_sycamore := fun l => .ok l

/-- Library surface whose first stage raises, used to evaluate exception
propagation on a concrete input. -/
def failLibs : Libs Unit Unit Nat where
  unitary := fun _ _ => .error 7
  transpile := fun _ => .ok ()
  qasm := fun _ => .ok ""
  circuit_from_qasm := fun _ => .ok []
  convert := fun l => .ok l
  optimized_for_sycamore := fun l => .ok l

/-- Library surface mirroring the actual behaviour of the QASM import on a
one-qubit circuit: the re-parsed circuit acts on the fresh named qubit q_0
of the QASM register, and the conversion and optimization stages keep the
qubits of their input. -/
def xLibs : Libs Unit Unit Unit where
  unitary := fun _ _ => .ok ()
  transpile := fun _ => .ok ()
  qasm := fun _ => .ok ""
  circuit_from_qasm := fun _ => .ok [Operation.mk "u3" [Qubit.named "q_0"]]
  convert := fun l => .ok l
  optimized_for_sycamore := fun l => .ok l

/-- A concrete list of five grid qubits, above the size cutoff. -/
def fiveQubits : List Qubit :=
  [Qubit.grid 0 0, Qubit.grid 0 1, Qubit.grid 0 2, Qubit.grid 0 3,
   Qubit.grid 0 4]

/-- Elimination principle for a successful run of the pipeline: success
forces every stage to have succeeded, in source order, each stage consuming
the value produced by the previous one, and determines the returned pair. -/
theorem pipeline_ok_elim (L : Libs Mat QCirc E) (n : Nat) (matrix : Mat)
    (out : OpTreeResult × List Qubit)
    (h : decompositionPipeline L n matrix = .ok out) :
    ∃ qc qc2 s qx qz qy,
      L.unitary n matrix = .ok qc ∧
      L.transpile qc = .ok qc2 ∧
      L.qasm qc2 = .ok s ∧
      L.circuit_from_qasm s = .ok qx ∧
      L.convert qx = .ok qz ∧
      L.optimized_for_sycamore qz = .ok qy ∧
      out = (.ops (if qz.length < qy.length then qz else qy), []) := by
  unfold decompositionPipeline at h
  split at h
  · exact absurd h (by simp)
  rename_i qc hqc
  split at h
  · exact absurd h (by simp)
  rename_i qc2 hqc2
  split at h
  · exact absurd h (by simp)
  rename_i s hs
  split at h
  · exact absurd h (by simp)
  rename_i qx hqx
  split at h
  · exact absurd h (by simp)
  rename_i qz hqz
  split at h
  · exact absurd h (by simp)
  rename_i qy hqy
  exact ⟨qc, qc2, s, qx, qz, qy, hqc, hqc2, hs, hqx, hqz, hqy,
    (Except.ok.inj h).symm⟩

/-- The pipeline never produces the NotImplemented sentinel: its only
successful outcome is an operation list. -/
theorem pipeline_never_sentinel (L : Libs Mat QCirc E) (n : Nat)
    (matrix : Mat) (anc : List Qubit) :
    decompositionPipeline L n matrix ≠ .ok (.NotImplemented, anc) := by
  intro h
  obtain ⟨_, _, _, _, _, _, _, _, _, _, _, _, hout⟩ :=
    pipeline_ok_elim L n matrix _ h
  exact OpTreeResult.noConfusion (congrArg Prod.fst hout)

/-- C2: with more than four target qubits the function returns the
NotImplemented sentinel paired with an empty ancilla list, for every matrix,
and the result coincides for any two library implementations, so no
decomposition library call is consulted before returning. -/
theorem size_guard_returns_sentinel (L L2 : Libs Mat QCirc E)
    (target_qubits : List Qubit) (matrix : Mat)
    (h : 4 < target_qubits.length) :
    matrix_to_sycamore_operations L target_qubits matrix
      = .ok (.NotImplemented, []) ∧
    matrix_to_sycamore_operations L target_qubits matrix
      = matrix_to_sycamore_operations L2 target_qubits matrix := by
  unfold matrix_to_sycamore_operations
  rw [if_pos h, if_pos h]
  exact ⟨rfl, rfl⟩

/-- Witness for C2 at a concrete five-qubit input. -/
theorem size_guard_returns_sentinel_witness :
    4 < fiveQubits.length ∧
    matrix_to_sycamore_operations trivLibs fiveQubits ()
      = .ok (.NotImplemented, []) :=
  ⟨by decide,
    (size_guard_returns_sentinel trivLibs trivLibs fiveQubits ()
      (by decide)).1⟩

/-- C5: on every return path the second component of the returned pair is
the empty list: no ancilla qubit is ever allocated. -/
theorem ancilla_list_always_empty (L : Libs Mat QCirc E)
    (target_qubits : List Qubit) (matrix : Mat)
    (r : OpTreeResult) (anc : List Qubit)
    (h : matrix_to_sycamore_operations L target_qubits matrix = .ok (r, anc)) :
    anc = [] := by
  unfold matrix_to_sycamore_operations at h
  split at h
  · exact (Prod.mk.injEq _ _ _ _ ▸ Except.ok.inj h).2.symm ▸ rfl
  obtain ⟨_, _, _, _, _, _, _, _, _, _, _, _, hout⟩ :=
    pipeline_ok_elim L _ matrix _ h
  exact congrArg Prod.snd hout

/-- Witness for C5 on both return paths at concrete inputs. -/
theorem ancilla_list_always_empty_witness : ([] : List Qubit) = [] :=
  ancilla_list_always_empty trivLibs fiveQubits () .NotImplemented [] rfl

/-- C10: the NotImplemented sentinel is produced only when there are more
than four target qubits, and for an empty target list the guard does not
fire: the function runs the decomposition pipeline at circuit width zero. -/
theorem sentinel_only_above_four (L : Libs Mat QCirc E)
    (target_qubits : List Qubit) (matrix : Mat) (anc : List Qubit) :
    (matrix_to_sycamore_operations L target_qubits matrix
        = .ok (.NotImplemented, anc) → 4 < target_qubits.length) ∧
    matrix_to_sycamore_operations L ([] : List Qubit) matrix
      = decompositionPipeline L 0 matrix := by
  constructor
  · intro h
    unfold matrix_to_sycamore_operations at h
    split at h
    · assumption
    · exact absurd h (pipeline_never_sentinel L _ matrix anc)
  · unfold matrix_to_sycamore_operations
    rfl

/-- Witness for C10: the sentinel at five qubits implies the guard held,
and the empty-target call runs the pipeline at width zero. -/
theorem sentinel_only_above_four_witness :
    4 < fiveQubits.length ∧
    matrix_to_sycamore_operations trivLibs ([] : List Qubit) ()
      = decompositionPipeline trivLibs 0 () :=
  ⟨(sentinel_only_above_four trivLibs fiveQubits () []).1 rfl,
    (sentinel_only_above_four trivLibs [] () []).2⟩

/-- C3: for a supported size, when every stage succeeds the function
returns the shorter of the converted-but-unoptimized list qz and the
optimized list qy, ties going to the optimized list, and consequently the
length of the returned list never exceeds the length of qz. -/
theorem shorter_candidate_returned (L : Libs Mat QCirc E)
    (target_qubits : List Qubit) (matrix : Mat)
    (h4 : target_qubits.length ≤ 4)
    (qc qc2 : QCirc) (s : String) (qx qz qy : List Operation)
    (h1 : L.unitary target_qubits.length matrix = .ok qc)
    (h2 : L.transpile qc = .ok qc2)
    (h3 : L.qasm qc2 = .ok s)
    (h5 : L.circuit_from_qasm s = .ok qx)
    (h6 : L.convert qx = .ok qz)
    (h7 : L.optimized_for_sycamore qz = .ok qy) :
    matrix_to_sycamore_operations L target_qubits matrix
      = .ok (.ops (if qz.length < qy.length then qz else qy), []) ∧
    (qy.length ≤ qz.length →
      matrix_to_sycamore_operations L target_qubits matrix
        = .ok (.ops qy, [])) ∧
    (if qz.length < qy.length then qz else qy).length ≤ qz.length := by
  have hmain : matrix_to_sycamore_operations L target_qubits matrix
      = .ok (.ops (if qz.length < qy.length then qz else qy), []) := by
    unfold matrix_to_sycamore_operations decompositionPipeline
    rw [if_neg (not_lt.mpr h4)]
    simp only [h1, h2, h3, h5, h6, h7]
  refine ⟨hmain, fun hle => ?_, ?_⟩
  · rw [hmain, if_neg (not_lt.mpr hle)]
  · split
    · exact le_rfl
    · exact not_lt.mp (by assumption)

/-- Witness for C3 at a concrete one-qubit input with trivial stages. -/
theorem shorter_candidate_returned_witness :
    matrix_to_sycamore_operations trivLibs [Qubit.grid 0 0] ()
      = .ok (.ops [], []) ∧
    ([] : List Operation).length ≤ ([] : List Operation).length :=
  ⟨(shorter_candidate_returned trivLibs [Qubit.grid 0 0] () (by decide)
      () () "" [] [] [] rfl rfl rfl rfl rfl rfl).1,
    le_rfl⟩

/-- C6: for a supported size, a successful call exhibits the pipeline in
the source order: circuit built from the matrix, transpile, QASM
serialization, re-parse, Sycamore gate conversion, then the optimization
pass applied to the output of the conversion pass, and the result is the
tie-broken choice between the two candidates. -/
theorem pipeline_stage_order (L : Libs Mat QCirc E)
    (target_qubits : List Qubit) (matrix : Mat)
    (h4 : target_qubits.length ≤ 4)
    (out : OpTreeResult × List Qubit)
    (h : matrix_to_sycamore_operations L target_qubits matrix = .ok out) :
    ∃ qc qc2 s qx qz qy,
      L.unitary target_qubits.length matrix = .ok qc ∧
      L.transpile qc = .ok qc2 ∧
      L.qasm qc2 = .ok s ∧
      L.circuit_from_qasm s = .ok qx ∧
      L.convert qx = .ok qz ∧
      L.optimized_for_sycamore qz = .ok qy ∧
      out = (.ops (if qz.length < qy.length then qz else qy), []) := by
  unfold matrix_to_sycamore_operations at h
  rw [if_neg (not_lt.mpr h4)] at h
  exact pipeline_ok_elim L _ matrix _ h

/-- Witness for C6 at a concrete one-qubit input with trivial stages. -/
theorem pipeline_stage_order_witness :
    ∃ (qc qc2 : Unit) (s : String) (qx qz qy : List Operation),
      trivLibs.unitary ([Qubit.grid 0 0] : List Qubit).length () = .ok qc ∧
      trivLibs.transpile qc = .ok qc2 ∧
      trivLibs.qasm qc2 = .ok s ∧
      trivLibs.circuit_from_qasm s = .ok qx ∧
      trivLibs.convert qx = .ok qz ∧
      trivLibs.optimized_for_sycamore qz = .ok qy ∧
      ((OpTreeResult.ops [], ([] : List Qubit))
        = (.ops (if qz.length < qy.length then qz else qy), [])) :=
  pipeline_stage_order trivLibs [Qubit.grid 0 0] () (by decide)
    (.ops [], []) rfl

/-- C7: an exception raised by any stage, when every earlier stage
succeeded, is returned unchanged as the outcome of the call: no catch, no
wrapping, no retry. -/
theorem exceptions_propagate (L : Libs Mat QCirc E)
    (target_qubits : List Qubit) (matrix : Mat)
    (h4 : target_qubits.length ≤ 4) (e : E) :
    (L.unitary target_qubits.length matrix = .error e →
      matrix_to_sycamore_operations L target_qubits matrix = .error e) ∧
    (∀ qc, L.unitary target_qubits.length matrix = .ok qc →
      L.transpile qc = .error e →
      matrix_to_sycamore_operations L target_qubits matrix = .error e) ∧
    (∀ qc qc2, L.unitary target_qubits.length matrix = .ok qc →
      L.transpile qc = .ok qc2 →
      L.qasm qc2 = .error e →
      matrix_to_sycamore_operations L target_qubits matrix = .error e) ∧
    (∀ qc qc2 s, L.unitary target_qubits.length matrix = .ok qc →
      L.transpile qc = .ok qc2 →
      L.qasm qc2 = .ok s →
      L.circuit_from_qasm s = .error e →
      matrix_to_sycamore_operations L target_qubits matrix = .error e) ∧
    (∀ qc qc2 s qx, L.unitary target_qubits.length matrix = .ok qc →
      L.transpile qc = .ok qc2 →
      L.qasm qc2 = .ok s →
      L.circuit_from_qasm s = .ok qx →
      L.convert qx = .error e →
      matrix_to_sycamore_operations L target_qubits matrix = .error e) ∧
    (∀ qc qc2 s qx qz, L.unitary target_qubits.length matrix = .ok qc →
      L.transpile qc = .ok qc2 →
      L.qasm qc2 = .ok s →
      L.circuit_from_qasm s = .ok qx →
      L.convert qx = .ok qz →
      L.optimized_for_sycamore qz = .error e →
      matrix_to_sycamore_operations L target_qubits matrix = .error e) := by
  have hng : ¬ 4 < target_qubits.length := not_lt.mpr h4
  refine ⟨fun g1 => ?_, fun qc g1 g2 => ?_, fun qc qc2 g1 g2 g3 => ?_,
    fun qc qc2 s g1 g2 g3 g4 => ?_, fun qc qc2 s qx g1 g2 g3 g4 g5 => ?_,
    fun qc qc2 s qx qz g1 g2 g3 g4 g5 g6 => ?_⟩ <;>
  · unfold matrix_to_sycamore_operations decompositionPipeline
    rw [if_neg hng]
    simp only [g1]
    try simp only [g2]
    try simp only [g3]
    try simp only [g4]
    try simp only [g5]
    try simp only [g6]

/-- Witness for C7: a first-stage exception at a concrete input is the
outcome of the call. -/
theorem exceptions_propagate_witness :
    matrix_to_sycamore_operations failLibs [Qubit.grid 0 0] ()
      = .error 7 :=
  (exceptions_propagate failLibs [Qubit.grid 0 0] () (by decide) 7).1 rfl

/-- C8: at the statement level the body writes only the local variables of
its frame: the two inputs of the final frame equal those of the initial
frame on every path, including the aborted ones, and the statement-level
run computes exactly the value of the function, which has no other
effect. -/
theorem inputs_never_mutated (L : Libs Mat QCirc E) (f : Frame Mat QCirc) :
    (runStmts L f).1.target_qubits = f.target_qubits ∧
    (runStmts L f).1.matrix = f.matrix ∧
    (runStmts L f).2
      = matrix_to_sycamore_operations L f.target_qubits f.matrix := by
  unfold runStmts matrix_to_sycamore_operations decompositionPipeline
  repeat' split
  all_goals exact ⟨rfl, rfl, rfl⟩

/-- C9: invocations are independent: the module state is returned
unchanged, and running an invocation after any earlier invocation yields
the same result as running it on the initial module state, so an earlier
call cannot change a later one. -/
theorem invocations_independent {Mat0 QCirc0 E0 : Type} (g : ModuleState)
    (L0 : Libs Mat0 QCirc0 E0) (tq0 : List Qubit) (m0 : Mat0)
    (L : Libs Mat QCirc E) (tq : List Qubit) (m : Mat) :
    (invoke (invoke g L0 tq0 m0).1 L tq m).2 = (invoke g L tq m).2 ∧
    (invoke g L tq m).1 = g ∧
    (invoke g L tq m).2 = matrix_to_sycamore_operations L tq m :=
  ⟨rfl, rfl, rfl⟩

/-- C1: round-trip correctness.  The numerical work is done by the
external stages, so the theorem is conditional on their documented
contracts: an abstract tolerance relation approx that composes
transitively, a unitary-semantics map for qiskit circuits and one for
cirq operation lists, and one semantics-preservation hypothesis per
stage.  Under these, every operation list returned for a supported size
approximates the input matrix. -/
theorem round_trip_correctness (L : Libs Mat QCirc E)
    (approx : Mat → Mat → Prop)
    (semOps : List Operation → Mat) (semQ : QCirc → Mat)
    (htrans : Transitive approx)
    (target_qubits : List Qubit) (matrix : Mat)
    (_hn1 : 1 ≤ target_qubits.length) (hn4 : target_qubits.length ≤ 4)
    (hunitary : ∀ qc, L.unitary target_qubits.length matrix = .ok qc →
      approx (semQ qc) matrix)
    (htranspile : ∀ qc qc2, L.transpile qc = .ok qc2 →
      approx (semQ qc2) (semQ qc))
    (hqasm : ∀ qc s qx, L.qasm qc = .ok s →
      L.circuit_from_qasm s = .ok qx → approx (semOps qx) (semQ qc))
    (hconvert : ∀ qx qz, L.convert qx = .ok qz →
      approx (semOps qz) (semOps qx))
    (hopt : ∀ qz qy, L.optimized_for_sycamore qz = .ok qy →
      approx (semOps qy) (semOps qz))
    (ans : List Operation) (anc : List Qubit)
    (h : matrix_to_sycamore_operations L target_qubits matrix
      = .ok (.ops ans, anc)) :
    approx (semOps ans) matrix := by
  unfold matrix_to_sycamore_operations at h
  rw [if_neg (not_lt.mpr hn4)] at h
  obtain ⟨qc, qc2, s, qx, qz, qy, h1, h2, h3, h5, h6, h7, hout⟩ :=
    pipeline_ok_elim L _ matrix _ h
  have hz : approx (semOps qz) matrix :=
    htrans (hconvert _ _ h6)
      (htrans (hqasm _ _ _ h3 h5)
        (htrans (htranspile _ _ h2) (hunitary _ h1)))
  have hy : approx (semOps qy) matrix := htrans (hopt _ _ h7) hz
  have hans : ans = if qz.length < qy.length then qz else qy := by
    have := congrArg Prod.fst hout
    simpa using this
  rw [hans]
  split
  · exact hz
  · exact hy

/-- Witness for C1 with the exact-equality tolerance on a trivial matrix
type and trivial stages. -/
theorem round_trip_correctness_witness :
    matrix_to_sycamore_operations trivLibs [Qubit.grid 0 0] ()
      = .ok (.ops [], []) ∧ (() : Unit) = () :=
  ⟨rfl,
    round_trip_correctness trivLibs Eq (fun _ => ()) (fun _ => ())
      (by intro a b c hab hbc; exact hab.trans hbc) [Qubit.grid 0 0] ()
      (by decide) (by decide)
      (fun _ _ => rfl) (fun _ _ _ => rfl) (fun _ _ _ _ _ => rfl)
      (fun _ _ _ => rfl) (fun _ _ _ => rfl) [] [] rfl⟩

/-- C4 fails on the code: the function never maps the re-parsed circuit
back onto the callers qubits, so under the documented behaviour of the
stages (the QASM import manufactures fresh named register qubits, and the
conversion and optimization stages only keep qubits of their input) every
qubit referenced by a returned operation is a named qubit, hence not a
member of the all-grid target list the caller supplied. -/
theorem returned_operations_use_foreign_qubits (L : Libs Mat QCirc E)
    (target_qubits : List Qubit) (matrix : Mat)
    (htq : ∀ q ∈ target_qubits, ∃ r c, q = Qubit.grid r c)
    (hqasmNamed : ∀ s qx, L.circuit_from_qasm s = .ok qx →
      ∀ op ∈ qx, ∀ q ∈ op.qubits, ∃ nm, q = Qubit.named nm)
    (hconv : ∀ qx qz, L.convert qx = .ok qz →
      ∀ op ∈ qz, ∀ q ∈ op.qubits, ∃ op2 ∈ qx, q ∈ op2.qubits)
    (hopt : ∀ qz qy, L.optimized_for_sycamore qz = .ok qy →
      ∀ op ∈ qy, ∀ q ∈ op.qubits, ∃ op2 ∈ qz, q ∈ op2.qubits)
    (ans : List Operation) (anc : List Qubit)
    (h : matrix_to_sycamore_operations L target_qubits matrix
      = .ok (.ops ans, anc))
    (op : Operation) (hop : op ∈ ans) (q : Qubit) (hq : q ∈ op.qubits) :
    q ∉ target_qubits := by
  unfold matrix_to_sycamore_operations at h
  split at h
  · exact absurd (congrArg Prod.fst (Except.ok.inj h))
      (by simp)
  obtain ⟨qc, qc2, s, qx, qz, qy, h1, h2, h3, h5, h6, h7, hout⟩ :=
    pipeline_ok_elim L _ matrix _ h
  have hans : ans = if qz.length < qy.length then qz else qy := by
    have := congrArg Prod.fst hout
    simpa using this
  have hqz : ∀ op2 ∈ qz, ∀ q2 ∈ op2.qubits, ∃ nm, q2 = Qubit.named nm := by
    intro op2 hop2 q2 hq2
    obtain ⟨op3, hop3, hq3⟩ := hconv _ _ h6 op2 hop2 q2 hq2
    exact hqasmNamed _ _ h5 op3 hop3 q2 hq3
  have hnamed : ∃ nm, q = Qubit.named nm := by
    rw [hans] at hop
    by_cases hlt : qz.length < qy.length
    · rw [if_pos hlt] at hop
      exact hqz op hop q hq
    · rw [if_neg hlt] at hop
      obtain ⟨op2, hop2, hq2⟩ := hopt _ _ h7 op hop q hq
      exact hqz op2 hop2 q hq2
  intro hmem
  obtain ⟨nm, hnm⟩ := hnamed
  obtain ⟨r, c, hrc⟩ := htq q hmem
  rw [hnm] at hrc
  exact Qubit.noConfusion hrc

/-- Witness for C4: with the stages behaving as documented on a one-qubit
circuit, the returned operation acts on the named qubit q_0, which is not
the grid qubit the caller passed. -/
theorem returned_operations_use_foreign_qubits_witness :
    Qubit.named "q_0" ∉ [Qubit.grid 0 0] :=
  returned_operations_use_foreign_qubits xLibs [Qubit.grid 0 0] ()
    (by
      intro q hq
      simp at hq
      exact ⟨0, 0, hq⟩)
    (by
      intro s qx h op hop q hq
      injection h with h
      subst h
      simp at hop
      subst hop
      simp at hq
      exact ⟨"q_0", hq⟩)
    (by
      intro qx qz h op hop q hq
      injection h with h
      subst h
      exact ⟨op, hop, hq⟩)
    (by
      intro qz qy h op hop q hq
      injection h with h
      subst h
      exact ⟨op, hop, hq⟩)
    [Operation.mk "u3" [Qubit.named "q_0"]] [] rfl
    (Operation.mk "u3" [Qubit.named "q_0"]) (by simp)
    (Qubit.named "q_0") (by simp)

end QchackGoogle
